import Mathlib

/-!
Verification of the mention-tracker pipeline in src/app.py (Zomato/Swiggy
news tracker) against its design specification.

The embedding models the program state that the claims are about:

* `Article` is one entry of the provider's JSON articles array; absent JSON
  fields are `Option.none`.
* `ProviderResponse` is the outcome of the single outbound HTTP call made by
  `fetch_mentions`: `requests.get` raising (provider unreachable),
  `.json()` raising (malformed payload), or a parsed body whose articles
  array is read with `r.get("articles", [])`.
* A pandas DataFrame of mention rows is modelled as `List Mention`.  A frame
  built from an empty row list (`pd.DataFrame()` / `pd.DataFrame([])`)
  carries no columns, so a column access such as `df["brand"]` raises
  `KeyError` on it; the concatenation of per-brand frames is empty exactly
  when every per-brand row list is empty, which is how `collectSummaries`
  models that access.
* The summarization model (`transformers` pipeline) is an injected capability
  `cap : String → Except String String`; `summarize_text` wraps it in the
  try/except of lines 28-32.
* `st.cache_data` is a library facility, not code of the repository; the
  TTL cache is therefore modelled from the spec (see `getOrCompute`).
* Python's `text.strip()` is empty exactly when every character of `text`
  is whitespace, which is how `isBlank` models the guard on line 26.
* Rational numbers stand in for the float arithmetic of lines 96;
  `round1` is round-half-to-even at one decimal, numpy's rounding mode.
-/

structure Article where
  title : Option String
  sourceName : Option String
  url : Option String
  publishedAt : Option String
  description : Option String
deriving DecidableEq

/-- One mention row, as appended on lines 48-55 of src/app.py. -/
structure Mention where
  brand : String
  title : Option String
  source : Option String
  url : Option String
  published : Option String
  snippet : Option String
deriving DecidableEq

/-- Line 12: the configured brand set. -/
def BRANDS : List String := ["Zomato", "Swiggy"]

/-- Outcome of the one outbound call of `fetch_mentions` (line 45):
`requests.get(url, timeout=30)` may raise (unreachable), `.json()` may raise
(malformed body), or the parsed body holds an articles array. -/
inductive ProviderResponse where
  | unreachable (msg : String)
  | malformed (msg : String)
  | ok (articles : List Article)

/-- Result of a `fetch_mentions` call together with whether the outbound
network call was made. -/
structure FetchOutcome where
  result : Except String (List Mention)
  networkCalled : Bool

/-- Lines 48-55: one article dict becomes one mention row; the nested
`(a.get("source") or \x7b\x7d).get("name")` is flattened into `sourceName`. -/
def articleToMention (brand : String) (a : Article) : Mention :=
  { brand := brand, title := a.title, source := a.sourceName, url := a.url,
    published := a.publishedAt, snippet := a.description }

/-- Lines 38-56: `fetch_mentions`.  `apiKey` is the global `NEWSAPI_KEY`
(empty string when the secret and the environment variable are absent, which
is falsy on line 40); `resp` is the provider's behaviour for this call.
An exception from `requests.get(...).json()` propagates to the caller. -/
def fetch_mentions (apiKey : String) (brand start_date end_date : String)
    (resp : ProviderResponse) : FetchOutcome :=
  if apiKey = "" then ⟨Except.ok [], false⟩
  else
    match resp with
    | ProviderResponse.unreachable msg => ⟨Except.error msg, true⟩
    | ProviderResponse.malformed msg => ⟨Except.error msg, true⟩
    | ProviderResponse.ok articles =>
        ⟨Except.ok (articles.map (articleToMention brand)), true⟩

/-- Python's `text.strip()` yields the empty string exactly when every
character of `text` is whitespace. -/
def isSpaceChar (c : Char) : Bool :=
  c = ' ' || c = '\t' || c = '\n' || c = '\r'

/-- Guard of line 26: `not text.strip()`. -/
def isBlank (s : String) : Bool := s.data.all isSpaceChar

/-- Lines 24-32: `summarize_text`.  The summarization model is the injected
capability `cap`; the try/except converts any failure into the
`(error during summarization: ...)` placeholder string. -/
def summarize_text (cap : String → Except String String) (text : String) : String :=
  if isBlank text then "(no mentions)"
  else
    match cap text with
    | Except.ok s => s
    | Except.error e => "(error during summarization: " ++ e ++ ")"

/-- Modelled from the spec: the NaiveConcatSummarizer variant of section 4.5
has no counterpart in src/app.py.  Per the spec it joins the first 5
headlines with a fixed separator and yields the literal placeholder on input
that is empty after trimming. -/
def naive_concat_summarize (sep : String) (headlines : List String) : String :=
  let joined := String.intercalate sep (headlines.take 5)
  if isBlank joined then "(no mentions)" else joined

/-- Lines 70-71: `df[df["brand"] == b].head(5)` followed by
`subset["title"].dropna().tolist()` — the first 5 rows of the brand are
selected first, and only then are null titles dropped. -/
def code_first5_titles (df : List Mention) (b : String) : List String :=
  (((df.filter (fun m => m.brand == b)).take 5).map Mention.title).filterMap id

/-- The selection rule as the claim reads it: null titles are skipped first,
then the first 5 of the remaining titles are taken.  Stated only to be
compared with `code_first5_titles`. -/
def spec_first5_titles (df : List Mention) (b : String) : List String :=
  (((df.filter (fun m => m.brand == b)).map Mention.title).filterMap id).take 5

/-- Line 65: `[fetch_mentions(b, start_s, end_s) for b in BRANDS]` — the
comprehension evaluates left to right and the first exception aborts it. -/
def collectFetches (brands : List String) (apiKey : String)
    (resp : String → ProviderResponse) (start_s end_s : String) :
    Except String (List (List Mention)) :=
  match brands with
  | [] => Except.ok []
  | b :: rest =>
    match (fetch_mentions apiKey b start_s end_s (resp b)).result with
    | Except.error msg => Except.error msg
    | Except.ok df =>
      match collectFetches rest apiKey resp start_s end_s with
      | Except.error msg => Except.error msg
      | Except.ok dfs => Except.ok (df :: dfs)

/-- Lines 68-73: the summaries loop.  When the concatenated frame is empty it
carries no columns, so the very first `df[df["brand"] == b]` raises
`KeyError: 'brand'`; otherwise each brand contributes one summary row. -/
def collectSummaries (brands : List String) (df : List Mention)
    (cap : String → Except String String) :
    Except String (List (String × String)) :=
  match brands with
  | [] => Except.ok []
  | b :: rest =>
    if df.isEmpty then Except.error "KeyError: brand"
    else
      match collectSummaries rest df cap with
      | Except.error msg => Except.error msg
      | Except.ok rows =>
        Except.ok ((b, summarize_text cap
          (String.intercalate " " (code_first5_titles df b))) :: rows)

/-- Lines 59-74: `build_dataset`, with the brand list as a parameter (the
source closes over the global `BRANDS`).  The rolling window strings are
passed through; they only feed the request URL. -/
def build_dataset_with (brands : List String) (apiKey : String)
    (resp : String → ProviderResponse) (cap : String → Except String String)
    (start_s end_s : String) :
    Except String (List Mention × List (String × String)) :=
  match collectFetches brands apiKey resp start_s end_s with
  | Except.error msg => Except.error msg
  | Except.ok dfs =>
    let df := dfs.flatten
    match collectSummaries brands df cap with
    | Except.error msg => Except.error msg
    | Except.ok summaries => Except.ok (df, summaries)

/-- `build_dataset` as the source has it, over the configured `BRANDS`. -/
def build_dataset (apiKey : String) (resp : String → ProviderResponse)
    (cap : String → Except String String) (start_s end_s : String) :
    Except String (List Mention × List (String × String)) :=
  build_dataset_with BRANDS apiKey resp cap start_s end_s

/-- Distinct elements of a list (order irrelevant here: the group keys are
sorted afterwards, as pandas `groupby` does). -/
def dedup : List String → List String
  | [] => []
  | b :: rest =>
    let r := dedup rest
    if b ∈ r then r else b :: r

/-- Code-point lexicographic order on character lists, python's string
order. -/
def charListLt : List Char → List Char → Bool
  | [], [] => false
  | [], _ :: _ => true
  | _ :: _, [] => false
  | a :: as, b :: bs =>
    if a.toNat < b.toNat then true
    else if b.toNat < a.toNat then false
    else charListLt as bs

def strLe (a b : String) : Bool := !(charListLt b.data a.data)

/-- Stable insertion of `x` into a list sorted by `le`: `x` goes after the
elements it ties with. -/
def insertSortedBy (le : α → α → Bool) (x : α) : List α → List α
  | [] => [x]
  | y :: l => if le x y then x :: y :: l else y :: insertSortedBy le x l

/-- Stable ascending sort, the behaviour of numpy's small-array sorts. -/
def sortBy (le : α → α → Bool) : List α → List α
  | [] => []
  | x :: l => insertSortedBy le x (sortBy le l)

/-- Number of rows of the brand: `df.groupby("brand").size()[b]`. -/
def countBrand (mentions : List Mention) (b : String) : Nat :=
  (mentions.filter (fun m => m.brand == b)).length

/-- Line 91, first half: `mentions_df.groupby("brand").size()` — the group
keys are the distinct brands present, in ascending name order (pandas
`groupby` default `sort=True`), each with its group size. -/
def groupby_size (mentions : List Mention) : List (String × Nat) :=
  (sortBy strLe (dedup (mentions.map Mention.brand))).map
    (fun b => (b, countBrand mentions b))

/-- `Series.sort_values(ascending=False)`: pandas `nargsort` computes the
ascending argsort and reverses it, so ties come out in reverse of the key
order; on the at most two groups reachable here the underlying argsort is
stable. -/
def sort_values_desc (l : List (String × Nat)) : List (String × Nat) :=
  (sortBy (fun p q => decide (p.2 ≤ q.2)) l).reverse

/-- Line 91: `sov = mentions_df.groupby("brand").size().sort_values(ascending=False)`. -/
def sov (mentions : List Mention) : List (String × Nat) :=
  sort_values_desc (groupby_size mentions)

/-- Line 92: `sov.index[0]`, computed only under `if not mentions_df.empty`. -/
def top_sov (mentions : List Mention) : Option String :=
  if mentions.isEmpty then none
  else ((sov mentions).map Prod.fst).head?

/-- Round half to even, numpy's rounding mode. -/
def roundHalfEven (y : ℚ) : ℤ :=
  let f := ⌊y⌋
  let r := y - f
  if r < 1/2 then f
  else if 1/2 < r then f + 1
  else if f % 2 = 0 then f else f + 1

/-- numpy `.round(1)` on exact rationals. -/
def round1 (x : ℚ) : ℚ := (roundHalfEven (10 * x) : ℚ) / 10

/-- Lines 94-97: `sov_pct = (sov / sov.sum() * 100).round(1)`, computed only
under `if not mentions_df.empty`. -/
def sov_pct (mentions : List Mention) : List (String × ℚ) :=
  if mentions.isEmpty then []
  else
    (sov mentions).map (fun p =>
      (p.1, round1 ((p.2 : ℚ) / ((((sov mentions).map Prod.snd).sum : ℕ) : ℚ) * 100)))

/-- Modelled from the spec: `st.cache_data` lives in the streamlit library,
not in src; section 4.2 specifies `MentionCache.getOrCompute(key, ttl,
producer)`: return the stored value while `now - fetchedAt < ttl`, otherwise
invoke the producer and store the result with `fetchedAt = now`.  The third
component records whether the producer was invoked by this call. -/
def getOrCompute {α : Type} (c : String → Option (α × Nat)) (key : String)
    (ttl : Nat) (producer : Unit → α) (now : Nat) :
    α × (String → Option (α × Nat)) × Bool :=
  match c key with
  | some (v, tf) =>
    if now - tf < ttl then (v, c, false)
    else
      let v := producer ()
      (v, fun k => if k = key then some (v, now) else c k, true)
  | none =>
    let v := producer ()
    (v, fun k => if k = key then some (v, now) else c k, true)

/-- The cache before anything is stored. -/
def emptyCache (α : Type) : String → Option (α × Nat) := fun _ => none

/-- Modelled from the spec: `clear()` (line 83, `st.cache_data.clear()`)
removes all entries unconditionally. -/
def clearCache {α : Type} (c : String → Option (α × Nat)) :
    String → Option (α × Nat) := fun _ => none

/-- Sample mention used as a concrete input. -/
def mA : Mention := ⟨"Zomato", some "t", none, none, none, none⟩

/-- Sample provider behaviour: Zomato responds with one article, the Swiggy
call raises a connection error. -/
def respC1 : String → ProviderResponse := fun b =>
  if b = "Swiggy" then ProviderResponse.unreachable "ConnectionError"
  else ProviderResponse.ok [⟨some "t1", none, none, none, none⟩]

/-- Sample provider behaviour: every brand responds with one titled article. -/
def respW : String → ProviderResponse :=
  fun _ => ProviderResponse.ok [⟨some "t", none, none, none, none⟩]

/-- Summarization capability that echoes its input. -/
def capOk : String → Except String String := fun t => Except.ok t

/-- Summarization capability that always fails. -/
def capErr : String → Except String String := fun _ => Except.error "boom"

/-- Brand-b frame whose first mention has a null title, followed by five
titled mentions. -/
def dfC7 : List Mention :=
  [⟨"Zomato", none, none, none, none, none⟩,
   ⟨"Zomato", some "a", none, none, none, none⟩,
   ⟨"Zomato", some "b", none, none, none, none⟩,
   ⟨"Zomato", some "c", none, none, none, none⟩,
   ⟨"Zomato", some "d", none, none, none, none⟩,
   ⟨"Zomato", some "e", none, none, none, none⟩]

/-- Concrete dataset produced by `build_dataset "k" respW capOk "s" "e"`. -/
def dfW : List Mention :=
  [⟨"Zomato", some "t", none, none, none, none⟩,
   ⟨"Swiggy", some "t", none, none, none, none⟩]

/-- Concrete summaries produced by `build_dataset "k" respW capOk "s" "e"`. -/
def smW : List (String × String) := [("Zomato", "t"), ("Swiggy", "t")]

theorem mem_insertSortedBy {α : Type} (le : α → α → Bool) (x : α) :
    ∀ (l : List α) (a : α), a ∈ insertSortedBy le x l ↔ a = x ∨ a ∈ l := by
  intro l
  induction l with
  | nil => intro a; simp [insertSortedBy]
  | cons y t ih =>
    intro a
    rw [insertSortedBy]
    by_cases h : le x y = true
    · simp [h]
    · simp only [Bool.not_eq_true] at h
      simp [h, ih, List.mem_cons]
      tauto

theorem mem_sortBy {α : Type} (le : α → α → Bool) :
    ∀ (l : List α) (a : α), a ∈ sortBy le l ↔ a ∈ l := by
  intro l
  induction l with
  | nil => intro a; simp [sortBy]
  | cons x t ih => intro a; simp [sortBy, mem_insertSortedBy, ih]

theorem mem_dedup : ∀ (l : List String) (a : String), a ∈ dedup l ↔ a ∈ l := by
  intro l
  induction l with
  | nil => intro a; simp [dedup]
  | cons b t ih =>
    intro a
    by_cases h : b ∈ dedup t
    · have hb : b ∈ t := (ih b).1 h
      simp only [dedup, h, if_true, List.mem_cons, ih a]
      constructor
      · exact fun hm => Or.inr hm
      · rintro (rfl | hm)
        · exact hb
        · exact hm
    · simp [dedup, h, ih a]

theorem nodup_dedup : ∀ l : List String, (dedup l).Nodup := by
  intro l
  induction l with
  | nil => simp [dedup]
  | cons b t ih =>
    by_cases h : b ∈ dedup t
    · simpa [dedup, h] using ih
    · simp [dedup, h, List.nodup_cons, ih, mem_dedup]

/-- C5: for every input text and every failure raised by the injected
summarization capability, `summarize_text` does not propagate the failure:
whenever the text is non-blank (so the capability is actually invoked) and
the capability fails with cause `msg`, the result is the literal
"(error during summarization: " ++ msg ++ ")". -/
theorem summarize_text_error_string (cap : String → Except String String)
    (text msg : String) (h1 : isBlank text = false)
    (h2 : cap text = Except.error msg) :
    summarize_text cap text = "(error during summarization: " ++ msg ++ ")" := by
  simp [summarize_text, h1, h2]

theorem summarize_text_error_string_witness :
    summarize_text capErr "headline" = "(error during summarization: " ++ "boom" ++ ")" :=
  summarize_text_error_string capErr "headline" "boom" (by decide) rfl

/-- C6: a headline sequence whose joined text is blank (empty after
stripping whitespace) yields the literal "(no mentions)", both for the
model-based summarizer of src/app.py (which receives the titles joined with
a single space, line 71) and for the spec-modelled naive concatenation
variant with its own separator. -/
theorem summarize_empty_no_mentions (cap : String → Except String String)
    (sep : String) (headlines : List String)
    (h1 : isBlank (String.intercalate " " headlines) = true)
    (h2 : isBlank (String.intercalate sep (headlines.take 5)) = true) :
    summarize_text cap (String.intercalate " " headlines) = "(no mentions)" ∧
    naive_concat_summarize sep headlines = "(no mentions)" := by
  constructor
  · simp [summarize_text, h1]
  · simp [naive_concat_summarize, h2]

theorem summarize_empty_no_mentions_witness :
    summarize_text capOk (String.intercalate " " []) = "(no mentions)" ∧
    naive_concat_summarize " | " [] = "(no mentions)" :=
  summarize_empty_no_mentions capOk " | " [] (by decide) (by decide)

/-- C9: with the API credential absent (empty `NEWSAPI_KEY`), `fetch_mentions`
returns an empty mention collection for every brand, window and provider
behaviour: it never raises (the result is `Except.ok []` whatever the
provider would have done) and the outbound network call is not made. -/
theorem fetch_mentions_missing_key (brand start_date end_date : String)
    (resp : ProviderResponse) :
    fetch_mentions "" brand start_date end_date resp =
      ⟨Except.ok [], false⟩ := rfl

/-- C8: TTL cache semantics (modelled from spec section 4.2, since
`st.cache_data` is library code).  Starting from the empty cache: the first
call at `t0` invokes the producer; a second call at `t1` with
`t1 - t0 < ttl` does not invoke it again and returns the stored value; a
call at `t2` with the entry stale re-invokes the producer and re-stores the
value with fetch time `t2`; after an explicit `clearCache` the producer is
re-invoked as well. -/
theorem getOrCompute_ttl_semantics (α : Type) (key : String) (ttl : Nat)
    (producer : Unit → α) (t0 t1 t2 : Nat)
    (h1 : t1 - t0 < ttl) (h2 : ¬ t2 - t0 < ttl) :
    (getOrCompute (emptyCache α) key ttl producer t0).2.2 = true ∧
    (getOrCompute (getOrCompute (emptyCache α) key ttl producer t0).2.1
        key ttl producer t1).2.2 = false ∧
    (getOrCompute (getOrCompute (emptyCache α) key ttl producer t0).2.1
        key ttl producer t1).1 =
      (getOrCompute (emptyCache α) key ttl producer t0).1 ∧
    (getOrCompute (getOrCompute (emptyCache α) key ttl producer t0).2.1
        key ttl producer t2).2.2 = true ∧
    (getOrCompute (getOrCompute (emptyCache α) key ttl producer t0).2.1
        key ttl producer t2).2.1 key = some (producer (), t2) ∧
    (getOrCompute
        (clearCache ((getOrCompute (emptyCache α) key ttl producer t0).2.1))
        key ttl producer t1).2.2 = true := by
  refine ⟨?_, ?_, ?_, ?_, ?_, ?_⟩ <;>
    simp [getOrCompute, emptyCache, clearCache, h1, h2]

theorem getOrCompute_ttl_semantics_witness :
    (getOrCompute (emptyCache Nat) "k" 10 (fun _ => 7) 0).2.2 = true ∧
    (getOrCompute (getOrCompute (emptyCache Nat) "k" 10 (fun _ => 7) 0).2.1
        "k" 10 (fun _ => 7) 5).2.2 = false ∧
    (getOrCompute (getOrCompute (emptyCache Nat) "k" 10 (fun _ => 7) 0).2.1
        "k" 10 (fun _ => 7) 5).1 =
      (getOrCompute (emptyCache Nat) "k" 10 (fun _ => 7) 0).1 ∧
    (getOrCompute (getOrCompute (emptyCache Nat) "k" 10 (fun _ => 7) 0).2.1
        "k" 10 (fun _ => 7) 30).2.2 = true ∧
    (getOrCompute (getOrCompute (emptyCache Nat) "k" 10 (fun _ => 7) 0).2.1
        "k" 10 (fun _ => 7) 30).2.1 "k" = some ((fun _ => 7) (), 30) ∧
    (getOrCompute
        (clearCache ((getOrCompute (emptyCache Nat) "k" 10 (fun _ => 7) 0).2.1))
        "k" 10 (fun _ => 7) 5).2.2 = true :=
  getOrCompute_ttl_semantics Nat "k" 10 (fun _ => 7) 0 5 30 (by decide) (by decide)

/-- C1 is false of the code: with the credential present, a single brand's
provider being unreachable aborts the whole `build_dataset` run — the
exception from the Swiggy fetch propagates and no dataset at all is
produced, even though the Zomato fetch succeeded. -/
theorem build_aborts_on_single_brand_failure :
    build_dataset "k" respC1 capOk "s" "e" = Except.error "ConnectionError" ∧
    (build_dataset "k" respC1 capOk "s" "e").isOk = false := ⟨rfl, rfl⟩

/-- C1 amended: per-brand failures are not isolated.  `build_dataset`
produces a dataset exactly when both configured brands' fetches succeed and
the combined collection is non-empty; any fetch exception, and likewise the
`KeyError` on the brand column of an all-empty frame (the missing-credential
case included), aborts the whole run. -/
theorem build_dataset_ok_iff (apiKey : String)
    (resp : String → ProviderResponse) (cap : String → Except String String)
    (start_s end_s : String) :
    (build_dataset apiKey resp cap start_s end_s).isOk = true ↔
      ∃ lz ls,
        (fetch_mentions apiKey "Zomato" start_s end_s (resp "Zomato")).result
          = Except.ok lz ∧
        (fetch_mentions apiKey "Swiggy" start_s end_s (resp "Swiggy")).result
          = Except.ok ls ∧
        lz ++ ls ≠ [] := by
  unfold build_dataset build_dataset_with BRANDS
  cases hz : (fetch_mentions apiKey "Zomato" start_s end_s (resp "Zomato")).result with
  | error m => simp [collectFetches, hz, Except.isOk, Except.toBool]
  | ok lz =>
    cases hs : (fetch_mentions apiKey "Swiggy" start_s end_s (resp "Swiggy")).result with
    | error m => simp [collectFetches, hz, hs, Except.isOk, Except.toBool]
    | ok ls =>
      by_cases hdf : lz ++ ls = []
      · obtain ⟨rfl, rfl⟩ := List.append_eq_nil.1 hdf
        simp [collectFetches, collectSummaries, hz, hs, Except.isOk,
          Except.toBool, List.isEmpty_iff]
      · have hflat : ([lz, ls] : List (List Mention)).flatten = lz ++ ls := by simp
        simp only [collectFetches, collectSummaries, hz, hs, hflat,
          List.isEmpty_iff, if_neg hdf, Except.isOk, Except.toBool]
        constructor
        · intro _
          exact ⟨lz, ls, rfl, rfl, hdf⟩
        · intro _
          trivial

/-- C2 is false of the code: on a collection holding only a Zomato mention,
`groupby("brand").size()` produces no entry at all for Swiggy — the
configured brand without mentions is absent from the share-of-voice result
instead of appearing with count 0. -/
theorem sov_omits_absent_brand :
    sov [mA] = [("Zomato", 1)] ∧
    ¬ ("Swiggy" ∈ (sov [mA]).map Prod.fst) := by decide

/-- C2 amended: the share-of-voice computation yields entries exactly for
the brands that occur in the collection — a configured brand with no
mentions is absent rather than present with count 0 — and each entry's
count is the number of that brand's mentions. -/
theorem sov_keys_eq_present_brands (mentions : List Mention) (b : String) :
    (b ∈ (sov mentions).map Prod.fst ↔ b ∈ mentions.map Mention.brand) ∧
    (∀ p ∈ sov mentions, p.2 = countBrand mentions p.1) := by
  constructor
  · have h1 : b ∈ (sov mentions).map Prod.fst ↔
        b ∈ dedup (mentions.map Mention.brand) := by
      constructor
      · intro hx
        obtain ⟨p, hp, rfl⟩ := List.mem_map.1 hx
        rw [sov, sort_values_desc, List.mem_reverse, mem_sortBy,
          groupby_size] at hp
        obtain ⟨k, hk, rfl⟩ := List.mem_map.1 hp
        exact (mem_sortBy _ _ _).1 hk
      · intro hx
        have hk : b ∈ sortBy strLe (dedup (mentions.map Mention.brand)) :=
          (mem_sortBy _ _ _).2 hx
        have hp : (b, countBrand mentions b) ∈ groupby_size mentions := by
          rw [groupby_size]
          exact List.mem_map.2 ⟨b, hk, rfl⟩
        have hp2 : (b, countBrand mentions b) ∈ sov mentions := by
          rw [sov, sort_values_desc, List.mem_reverse, mem_sortBy]
          exact hp
        exact List.mem_map.2 ⟨_, hp2, rfl⟩
    rw [h1, mem_dedup]
  · intro p hp
    rw [sov, sort_values_desc, List.mem_reverse, mem_sortBy,
      groupby_size] at hp
    obtain ⟨k, _, rfl⟩ := List.mem_map.1 hp
    rfl

/-- C7 is false of the code: lines 70-71 take the first 5 rows of the brand
and only then drop null titles.  On a frame whose first Zomato row has a
null title followed by five titled rows, the code selects four titles while
the claimed rule (skip nulls, then take 5) selects five. -/
theorem first5_titles_selection_ce :
    code_first5_titles dfC7 "Zomato" = ["a", "b", "c", "d"] ∧
    spec_first5_titles dfC7 "Zomato" = ["a", "b", "c", "d", "e"] ∧
    code_first5_titles dfC7 "Zomato" ≠ spec_first5_titles dfC7 "Zomato" := by
  decide

theorem collectSummaries_mem (cap : String → Except String String) :
    ∀ (brands : List String) (df : List Mention) (sm : List (String × String)),
      collectSummaries brands df cap = Except.ok sm →
      ∀ b ∈ brands,
        (b, summarize_text cap (String.intercalate " " (code_first5_titles df b))) ∈ sm := by
  intro brands
  induction brands with
  | nil =>
    intro df sm h b hb
    simp at hb
  | cons b0 rest ih =>
    intro df sm h b hb
    rw [collectSummaries] at h
    by_cases hemp : df.isEmpty
    · rw [if_pos hemp] at h
      simp at h
    · rw [if_neg hemp] at h
      cases hrec : collectSummaries rest df cap with
      | error m =>
        rw [hrec] at h
        simp at h
      | ok rows =>
        rw [hrec] at h
        have hsm : (b0, summarize_text cap
            (String.intercalate " " (code_first5_titles df b0))) :: rows = sm := by
          simpa using h
        rcases List.mem_cons.1 hb with rfl | hmem
        · rw [← hsm]
          exact List.mem_cons_self _ _
        · rw [← hsm]
          exact List.mem_cons_of_mem _ (ih df rows hrec b hmem)

theorem build_dataset_ok_parts (apiKey : String)
    (resp : String → ProviderResponse) (cap : String → Except String String)
    (start_s end_s : String) (df : List Mention) (sm : List (String × String))
    (h : build_dataset apiKey resp cap start_s end_s = Except.ok (df, sm)) :
    collectSummaries BRANDS df cap = Except.ok sm := by
  rw [build_dataset, build_dataset_with] at h
  cases hf : collectFetches BRANDS apiKey resp start_s end_s with
  | error m =>
    rw [hf] at h
    simp at h
  | ok dfs =>
    rw [hf] at h
    dsimp only at h
    cases hsm : collectSummaries BRANDS dfs.flatten cap with
    | error m =>
      rw [hsm] at h
      simp at h
    | ok rows =>
      rw [hsm] at h
      simp only [Except.ok.injEq, Prod.mk.injEq] at h
      obtain ⟨h1, h2⟩ := h
      rw [← h1, ← h2]
      exact hsm

/-- C7 amended: for each configured brand, the headlines handed to the
summarizer are the non-null titles among the first 5 of that brand's
mentions in collection order — nulls are selected first and then dropped, so
at most 5 (possibly fewer) titles result; they are in collection order, a
sublist of all the brand's non-null titles. -/
theorem build_summaries_first5_selection (apiKey : String)
    (resp : String → ProviderResponse) (cap : String → Except String String)
    (start_s end_s : String) (df : List Mention) (sm : List (String × String))
    (b : String)
    (h : build_dataset apiKey resp cap start_s end_s = Except.ok (df, sm))
    (hb : b ∈ BRANDS) :
    (b, summarize_text cap (String.intercalate " " (code_first5_titles df b))) ∈ sm ∧
    (code_first5_titles df b).Sublist
      (((df.filter (fun m => m.brand == b)).map Mention.title).filterMap id) ∧
    (code_first5_titles df b).length ≤ 5 := by
  refine ⟨collectSummaries_mem cap BRANDS df sm
    (build_dataset_ok_parts apiKey resp cap start_s end_s df sm h) b hb, ?_, ?_⟩
  · exact ((List.take_sublist 5 _).map Mention.title).filterMap id
  · calc (code_first5_titles df b).length
        ≤ (((df.filter (fun m => m.brand == b)).take 5).map Mention.title).length :=
          List.length_filterMap_le _ _
      _ = ((df.filter (fun m => m.brand == b)).take 5).length := List.length_map _ _
      _ ≤ 5 := List.length_take_le _ _

theorem build_summaries_first5_selection_witness :
    ("Zomato", summarize_text capOk
        (String.intercalate " " (code_first5_titles dfW "Zomato"))) ∈ smW ∧
    (code_first5_titles dfW "Zomato").Sublist
      (((dfW.filter (fun m => m.brand == "Zomato")).map Mention.title).filterMap id) ∧
    (code_first5_titles dfW "Zomato").length ≤ 5 :=
  build_summaries_first5_selection "k" respW capOk "s" "e" dfW smW "Zomato"
    rfl (by decide)

/-- C10 is false of the code: an empty brand set is not rejected anywhere —
the dataset build silently accepts it and returns an empty dataset with an
empty summaries table instead of failing with a configuration error. -/
theorem empty_brands_accepted_ce :
    build_dataset_with [] "k" respC1 capOk "s" "e" = Except.ok ([], []) := rfl

/-- C10 amended: the brand set is the hardcoded non-empty constant
`["Zomato", "Swiggy"]` and no construction-time validation exists; a run
over an empty brand list is silently accepted, producing an empty dataset
without any error, for every credential, provider behaviour and window. -/
theorem brands_config_no_validation :
    BRANDS = ["Zomato", "Swiggy"] ∧
    ∀ (apiKey : String) (resp : String → ProviderResponse)
      (cap : String → Except String String) (start_s end_s : String),
      build_dataset_with [] apiKey resp cap start_s end_s = Except.ok ([], []) :=
  ⟨rfl, fun _ _ _ _ _ => rfl⟩

theorem nodup_two (l : List String) (hnd : l.Nodup)
    (h : ∀ x ∈ l, x = "Zomato" ∨ x = "Swiggy") :
    l = [] ∨ l = ["Zomato"] ∨ l = ["Swiggy"] ∨
    l = ["Zomato", "Swiggy"] ∨ l = ["Swiggy", "Zomato"] := by
  rcases l with _ | ⟨x, _ | ⟨y, _ | ⟨z, t⟩⟩⟩
  · exact Or.inl rfl
  · rcases h x (by simp) with rfl | rfl
    · exact Or.inr (Or.inl rfl)
    · exact Or.inr (Or.inr (Or.inl rfl))
  · have hxy : x ≠ y := by
      simp [List.nodup_cons] at hnd
      exact hnd
    rcases h x (by simp) with rfl | rfl <;> rcases h y (by simp) with rfl | rfl
    · exact absurd rfl hxy
    · exact Or.inr (Or.inr (Or.inr (Or.inl rfl)))
    · exact Or.inr (Or.inr (Or.inr (Or.inr rfl)))
    · exact absurd rfl hxy
  · exfalso
    rcases h x (by simp) with hx | hx <;> rcases h y (by simp) with hy | hy <;>
      rcases h z (by simp) with hz | hz <;> subst hx <;> subst hy <;>
      subst hz <;> simp [List.nodup_cons] at hnd

theorem countBrand_all_eq (l : List Mention) (b : String)
    (h : ∀ m ∈ l, m.brand = b) : countBrand l b = l.length := by
  have hf : l.filter (fun m => m.brand == b) = l := by
    rw [List.filter_eq_self]
    intro m hm
    simp [h m hm]
  rw [countBrand, hf]

theorem countBrand_zero (l : List Mention) (b : String)
    (h : ∀ m ∈ l, m.brand ≠ b) : countBrand l b = 0 := by
  have hf : l.filter (fun m => m.brand == b) = [] := by
    rw [List.filter_eq_nil_iff]
    intro m hm
    simp [h m hm]
  rw [countBrand, hf]
  rfl

theorem countBrand_pos (l : List Mention) (b : String)
    (h : b ∈ l.map Mention.brand) : 0 < countBrand l b := by
  obtain ⟨m, hm, rfl⟩ := List.mem_map.1 h
  have hmem : m ∈ l.filter (fun x => x.brand == m.brand) :=
    List.mem_filter.2 ⟨hm, by simp⟩
  exact List.length_pos_of_mem hmem

theorem countBrand_add_eq_length (l : List Mention)
    (h : ∀ m ∈ l, m.brand = "Zomato" ∨ m.brand = "Swiggy") :
    countBrand l "Zomato" + countBrand l "Swiggy" = l.length := by
  induction l with
  | nil => rfl
  | cons m t ih =>
    have ht : ∀ x ∈ t, x.brand = "Zomato" ∨ x.brand = "Swiggy" :=
      fun x hx => h x (List.mem_cons_of_mem _ hx)
    have hrec := ih ht
    rcases h m (List.mem_cons_self _ _) with hb | hb
    · have h1 : countBrand (m :: t) "Zomato" = countBrand t "Zomato" + 1 := by
        simp [countBrand, List.filter_cons, hb]
      have h2 : countBrand (m :: t) "Swiggy" = countBrand t "Swiggy" := by
        simp [countBrand, List.filter_cons, hb]
      rw [h1, h2, List.length_cons]
      omega
    · have h1 : countBrand (m :: t) "Zomato" = countBrand t "Zomato" := by
        simp [countBrand, List.filter_cons, hb]
      have h2 : countBrand (m :: t) "Swiggy" = countBrand t "Swiggy" + 1 := by
        simp [countBrand, List.filter_cons, hb]
      rw [h1, h2, List.length_cons]
      omega

theorem sortBy_pair {α : Type} (le : α → α → Bool) (a b : α) :
    sortBy le [a, b] = if le a b then [a, b] else [b, a] := by
  simp [sortBy, insertSortedBy]

theorem sov_two_brand_shape (mentions : List Mention)
    (hkeys : sortBy strLe (dedup (mentions.map Mention.brand))
      = ["Swiggy", "Zomato"]) :
    sov mentions =
      if countBrand mentions "Swiggy" ≤ countBrand mentions "Zomato"
      then [("Zomato", countBrand mentions "Zomato"),
            ("Swiggy", countBrand mentions "Swiggy")]
      else [("Swiggy", countBrand mentions "Swiggy"),
            ("Zomato", countBrand mentions "Zomato")] := by
  rw [sov, groupby_size, hkeys]
  by_cases hc : countBrand mentions "Swiggy" ≤ countBrand mentions "Zomato"
  · simp [sort_values_desc, sortBy_pair, hc]
  · simp [sort_values_desc, sortBy_pair, hc]

theorem sov_cases (mentions : List Mention) (hne : mentions ≠ [])
    (hb : ∀ m ∈ mentions, m.brand ∈ BRANDS) :
    (countBrand mentions "Swiggy" = 0 ∧
      countBrand mentions "Zomato" = mentions.length ∧
      sov mentions = [("Zomato", countBrand mentions "Zomato")]) ∨
    (countBrand mentions "Zomato" = 0 ∧
      countBrand mentions "Swiggy" = mentions.length ∧
      sov mentions = [("Swiggy", countBrand mentions "Swiggy")]) ∨
    (0 < countBrand mentions "Zomato" ∧ 0 < countBrand mentions "Swiggy" ∧
      countBrand mentions "Zomato" + countBrand mentions "Swiggy"
        = mentions.length ∧
      sov mentions =
        if countBrand mentions "Swiggy" ≤ countBrand mentions "Zomato"
        then [("Zomato", countBrand mentions "Zomato"),
              ("Swiggy", countBrand mentions "Swiggy")]
        else [("Swiggy", countBrand mentions "Swiggy"),
              ("Zomato", countBrand mentions "Zomato")]) := by
  have hcov : ∀ x ∈ dedup (mentions.map Mention.brand),
      x = "Zomato" ∨ x = "Swiggy" := by
    intro x hx
    rw [mem_dedup] at hx
    obtain ⟨m, hm, rfl⟩ := List.mem_map.1 hx
    simpa [BRANDS] using hb m hm
  have hmemdedup : ∀ m ∈ mentions,
      m.brand ∈ dedup (mentions.map Mention.brand) := by
    intro m hm
    exact (mem_dedup _ _).2 (List.mem_map.2 ⟨m, hm, rfl⟩)
  rcases nodup_two _ (nodup_dedup _) hcov with h0 | hZ | hS | hZS | hSZ
  · exfalso
    obtain ⟨m, hm⟩ := List.exists_mem_of_ne_nil mentions hne
    have := hmemdedup m hm
    rw [h0] at this
    simp at this
  · have hall : ∀ m ∈ mentions, m.brand = "Zomato" := by
      intro m hm
      have := hmemdedup m hm
      rw [hZ] at this
      simpa using this
    refine Or.inl ⟨?_, countBrand_all_eq mentions "Zomato" hall, ?_⟩
    · refine countBrand_zero mentions "Swiggy" ?_
      intro m hm
      rw [hall m hm]
      decide
    · rw [sov, groupby_size, hZ]
      rfl
  · have hall : ∀ m ∈ mentions, m.brand = "Swiggy" := by
      intro m hm
      have := hmemdedup m hm
      rw [hS] at this
      simpa using this
    refine Or.inr (Or.inl ⟨?_, countBrand_all_eq mentions "Swiggy" hall, ?_⟩)
    · refine countBrand_zero mentions "Zomato" ?_
      intro m hm
      rw [hall m hm]
      decide
    · rw [sov, groupby_size, hS]
      rfl
  · have hall : ∀ m ∈ mentions, m.brand = "Zomato" ∨ m.brand = "Swiggy" :=
      fun m hm => hcov _ (hmemdedup m hm)
    have hZmem : "Zomato" ∈ mentions.map Mention.brand := by
      rw [← mem_dedup, hZS]
      simp
    have hSmem : "Swiggy" ∈ mentions.map Mention.brand := by
      rw [← mem_dedup, hZS]
      simp
    refine Or.inr (Or.inr ⟨countBrand_pos mentions "Zomato" hZmem,
      countBrand_pos mentions "Swiggy" hSmem,
      countBrand_add_eq_length mentions hall, ?_⟩)
    refine sov_two_brand_shape mentions ?_
    rw [hZS]
    decide
  · have hall : ∀ m ∈ mentions, m.brand = "Zomato" ∨ m.brand = "Swiggy" :=
      fun m hm => hcov _ (hmemdedup m hm)
    have hZmem : "Zomato" ∈ mentions.map Mention.brand := by
      rw [← mem_dedup, hSZ]
      simp
    have hSmem : "Swiggy" ∈ mentions.map Mention.brand := by
      rw [← mem_dedup, hSZ]
      simp
    refine Or.inr (Or.inr ⟨countBrand_pos mentions "Zomato" hZmem,
      countBrand_pos mentions "Swiggy" hSmem,
      countBrand_add_eq_length mentions hall, ?_⟩)
    refine sov_two_brand_shape mentions ?_
    rw [hSZ]
    decide

theorem abs_roundHalfEven_sub (y : ℚ) : |(roundHalfEven y : ℚ) - y| ≤ 1/2 := by
  have h1 : (⌊y⌋ : ℚ) ≤ y := Int.floor_le y
  have h2 : y < ⌊y⌋ + 1 := Int.lt_floor_add_one y
  simp only [roundHalfEven]
  split_ifs with ha hc hp
  · rw [abs_le]
    constructor <;> linarith
  · rw [abs_le]
    push_cast
    constructor <;> linarith
  · have hr : y - (⌊y⌋ : ℚ) = 1/2 := le_antisymm (not_lt.1 hc) (not_lt.1 ha)
    rw [abs_le]
    constructor <;> linarith
  · have hr : y - (⌊y⌋ : ℚ) = 1/2 := le_antisymm (not_lt.1 hc) (not_lt.1 ha)
    rw [abs_le]
    push_cast
    constructor <;> linarith

theorem abs_round1_sub (x : ℚ) : |round1 x - x| ≤ 1/20 := by
  have h := abs_roundHalfEven_sub (10 * x)
  rw [round1]
  have heq : (roundHalfEven (10 * x) : ℚ) / 10 - x
      = ((roundHalfEven (10 * x) : ℚ) - 10 * x) / 10 := by ring
  rw [heq, abs_div]
  have h10 : |(10 : ℚ)| = 10 := by norm_num
  rw [h10, div_le_iff₀ (by norm_num : (0:ℚ) < 10)]
  linarith

theorem round_sum_two (a b : ℚ) (hab : a + b = 100) :
    |round1 a + round1 b - 100| ≤ 1/10 := by
  have h1 := abs_round1_sub a
  have h2 := abs_round1_sub b
  rw [abs_le] at h1 h2 ⊢
  constructor <;> linarith [h1.1, h1.2, h2.1, h2.2]

theorem sov_pct_case_single (mentions : List Mention) (b : String)
    (hni : ¬ mentions.isEmpty = true) (hlen : 0 < mentions.length)
    (hsov : sov mentions = [(b, countBrand mentions b)])
    (hc : countBrand mentions b = mentions.length) :
    (∀ p ∈ sov_pct mentions, ∃ c : ℕ, (p.1, c) ∈ sov mentions ∧
        p.2 = round1 (100 * (c : ℚ) / (mentions.length : ℚ))) ∧
    |((sov_pct mentions).map Prod.snd).sum - 100| ≤ 1/10 := by
  have hL : (mentions.length : ℚ) ≠ 0 := by
    exact_mod_cast hlen.ne'
  have hsumterm : (([(b, countBrand mentions b)] :
      List (String × ℕ)).map Prod.snd).sum = mentions.length := by
    simp [hc]
  rw [sov_pct, if_neg hni, hsov, hsumterm]
  constructor
  · intro p hp
    simp only [List.map_cons, List.map_nil, List.mem_cons,
      List.not_mem_nil, or_false] at hp
    subst hp
    refine ⟨countBrand mentions b, by simp, ?_⟩
    ring
  · have hcq : ((countBrand mentions b : ℕ) : ℚ) = (mentions.length : ℚ) := by
      exact_mod_cast hc
    have ha : ((countBrand mentions b : ℕ) : ℚ) / (mentions.length : ℚ) * 100
        = 100 := by
      rw [hcq, div_self hL]
      norm_num
    simp only [List.map_cons, List.map_nil, List.sum_cons, List.sum_nil,
      add_zero, ha]
    have := abs_round1_sub 100
    rw [abs_le] at this ⊢
    constructor <;> linarith [this.1, this.2]

theorem sov_pct_case_double (mentions : List Mention) (b1 b2 : String)
    (hni : ¬ mentions.isEmpty = true) (hlen : 0 < mentions.length)
    (hsov : sov mentions = [(b1, countBrand mentions b1),
      (b2, countBrand mentions b2)])
    (hsum : countBrand mentions b1 + countBrand mentions b2
      = mentions.length) :
    (∀ p ∈ sov_pct mentions, ∃ c : ℕ, (p.1, c) ∈ sov mentions ∧
        p.2 = round1 (100 * (c : ℚ) / (mentions.length : ℚ))) ∧
    |((sov_pct mentions).map Prod.snd).sum - 100| ≤ 1/10 := by
  have hL : (mentions.length : ℚ) ≠ 0 := by
    exact_mod_cast hlen.ne'
  have hsumterm : (([(b1, countBrand mentions b1),
      (b2, countBrand mentions b2)] :
      List (String × ℕ)).map Prod.snd).sum = mentions.length := by
    simp [hsum]
  rw [sov_pct, if_neg hni, hsov, hsumterm]
  constructor
  · intro p hp
    simp only [List.map_cons, List.map_nil, List.mem_cons,
      List.not_mem_nil, or_false] at hp
    rcases hp with rfl | rfl
    · refine ⟨countBrand mentions b1, by simp, ?_⟩
      ring
    · refine ⟨countBrand mentions b2, by simp, ?_⟩
      ring
  · have hcast : ((countBrand mentions b1 : ℕ) : ℚ)
        + ((countBrand mentions b2 : ℕ) : ℚ) = (mentions.length : ℚ) := by
      exact_mod_cast hsum
    have hab : ((countBrand mentions b1 : ℕ) : ℚ) / (mentions.length : ℚ) * 100
        + ((countBrand mentions b2 : ℕ) : ℚ) / (mentions.length : ℚ) * 100
        = 100 := by
      calc ((countBrand mentions b1 : ℕ) : ℚ) / (mentions.length : ℚ) * 100
            + ((countBrand mentions b2 : ℕ) : ℚ) / (mentions.length : ℚ) * 100
          = (((countBrand mentions b1 : ℕ) : ℚ)
              + ((countBrand mentions b2 : ℕ) : ℚ))
            / (mentions.length : ℚ) * 100 := by ring
        _ = (mentions.length : ℚ) / (mentions.length : ℚ) * 100 := by
            rw [hcast]
        _ = 100 := by rw [div_self hL]; norm_num
    simp only [List.map_cons, List.map_nil, List.sum_cons, List.sum_nil,
      add_zero]
    exact round_sum_two _ _ hab

/-- C3: the "top share of voice" brand (line 92) is the brand with the
strictly highest count; on a tie the winner is "Zomato", the first entry of
the configured `BRANDS` order.  The pandas chain sorts the group keys
ascending by name and `sort_values(ascending=False)` reverses a stable
ascending argsort, so a tie between the two configured brands comes out
with "Zomato" first.  The model is a pure function of the collection, so
determinism (identical input, identical output) holds by construction. -/
theorem top_sov_highest_count (mentions : List Mention) (hne : mentions ≠ [])
    (hb : ∀ m ∈ mentions, m.brand ∈ BRANDS) :
    top_sov mentions =
      some (if countBrand mentions "Zomato" < countBrand mentions "Swiggy"
            then "Swiggy" else "Zomato") ∧
    BRANDS.head? = some "Zomato" := by
  have hni : ¬ mentions.isEmpty = true := by
    simpa [List.isEmpty_iff] using hne
  have hlen : 0 < mentions.length := List.length_pos.2 hne
  refine ⟨?_, rfl⟩
  rcases sov_cases mentions hne hb with
    ⟨hcs, hcz, hsov⟩ | ⟨hcz, hcs, hsov⟩ | ⟨hpz, hps, hsum, hsov⟩
  · rw [top_sov, if_neg hni, hsov, if_neg (by omega)]
    rfl
  · rw [top_sov, if_neg hni, hsov, if_pos (by omega)]
    rfl
  · by_cases hcmp : countBrand mentions "Swiggy" ≤ countBrand mentions "Zomato"
    · rw [top_sov, if_neg hni, hsov, if_pos hcmp, if_neg (by omega)]
      rfl
    · rw [top_sov, if_neg hni, hsov, if_neg hcmp, if_pos (by omega)]
      rfl

theorem top_sov_highest_count_witness :
    top_sov [mA] =
      some (if countBrand [mA] "Zomato" < countBrand [mA] "Swiggy"
            then "Swiggy" else "Zomato") ∧
    BRANDS.head? = some "Zomato" :=
  top_sov_highest_count [mA] (by decide) (by decide)

/-- C4: for a non-empty collection over the configured brands, every
share-of-voice percentage is the brand's count divided by the total, times
100, rounded to one decimal (half to even), and the percentages sum to
within 0.1 of 100; for the empty collection the percentage series is not
computed at all (lines 94-97 are guarded by `if not mentions_df.empty`), so
no percentage exists — vacuously all are 0 — and no division is performed. -/
theorem sov_pct_round_and_sum (mentions : List Mention)
    (hb : ∀ m ∈ mentions, m.brand ∈ BRANDS) :
    (mentions = [] → sov_pct mentions = []) ∧
    (mentions ≠ [] →
      (∀ p ∈ sov_pct mentions, ∃ c : ℕ, (p.1, c) ∈ sov mentions ∧
        p.2 = round1 (100 * (c : ℚ) / (mentions.length : ℚ))) ∧
      |((sov_pct mentions).map Prod.snd).sum - 100| ≤ 1/10) := by
  constructor
  · intro h
    rw [sov_pct, if_pos (by simp [h])]
  · intro hne
    have hni : ¬ mentions.isEmpty = true := by
      simpa [List.isEmpty_iff] using hne
    have hlen : 0 < mentions.length := List.length_pos.2 hne
    rcases sov_cases mentions hne hb with
      ⟨hcs, hcz, hsov⟩ | ⟨hcz, hcs, hsov⟩ | ⟨hpz, hps, hsum, hsov⟩
    · exact sov_pct_case_single mentions "Zomato" hni hlen hsov hcz
    · exact sov_pct_case_single mentions "Swiggy" hni hlen hsov hcs
    · by_cases hcmp : countBrand mentions "Swiggy" ≤ countBrand mentions "Zomato"
      · refine sov_pct_case_double mentions "Zomato" "Swiggy" hni hlen ?_ ?_
        · rw [hsov, if_pos hcmp]
        · omega
      · refine sov_pct_case_double mentions "Swiggy" "Zomato" hni hlen ?_ ?_
        · rw [hsov, if_neg hcmp]
        · omega

theorem sov_pct_round_and_sum_witness :
    |((sov_pct [mA]).map Prod.snd).sum - 100| ≤ 1/10 :=
  ((sov_pct_round_and_sum [mA] (by decide)).2 (by decide)).2
